import Mathlib

/-!
Verification of the workspace-trust subsystem
(`src/vs/platform/workspace/common/workspaceTrust.ts`).

The development shallowly embeds the four components of the file:
the per-folder trust store (`WorkspaceTrustModel`), the aggregation
algorithm (`WorkspaceTrustService.calculateWorkspaceTrustState`), the
request coordinator (`WorkspaceTrustRequestModel`) and the service
facade (`WorkspaceTrustService`).  Stateful TypeScript code is embedded
as explicit state passing; events fired by emitters are collected in a
list of `ServiceEvent` values; promises are given explicit numeric
identities so that sharing of a single in-flight future is expressible.
-/

set_option autoImplicit false

namespace WorkspaceTrust

/-- `enum WorkspaceTrustState { Untrusted = 0, Trusted = 1, Unknown = 2 }`. -/
inductive WorkspaceTrustState where
  | Untrusted
  | Trusted
  | Unknown
deriving DecidableEq, Repr

/--
The folder loop of `WorkspaceTrustService.calculateWorkspaceTrustState`
(lines 288-306): `state` starts as `undefined`; an `Untrusted` folder
returns immediately, an `Unknown` folder overwrites `state`, a `Trusted`
folder sets `state` only when it is still `undefined`; at the end the
result is `state ?? Unknown`.
-/
def calcLoop (state : Option WorkspaceTrustState) (folders : List WorkspaceTrustState) :
    WorkspaceTrustState :=
  match folders with
  | [] => state.getD WorkspaceTrustState.Unknown
  | folderTrust :: rest =>
    match folderTrust with
    | WorkspaceTrustState.Untrusted => WorkspaceTrustState.Untrusted
    | WorkspaceTrustState.Unknown => calcLoop (some WorkspaceTrustState.Unknown) rest
    | WorkspaceTrustState.Trusted =>
        calcLoop (if state = none then some WorkspaceTrustState.Trusted else state) rest

/--
`WorkspaceTrustService.calculateWorkspaceTrustState` (lines 279-307),
parametrised by the values the method reads from its collaborators:
the configuration flag (`isWorkspaceTrustEnabled`), whether the
workbench state is `EMPTY`, and the sequence of per-folder trust states
obtained from the data model for the workspace folders.
-/
def calculateWorkspaceTrustState (trustEnabled isEmptyWorkspace : Bool)
    (folderStates : List WorkspaceTrustState) : WorkspaceTrustState :=
  if !trustEnabled then WorkspaceTrustState.Trusted
  else if isEmptyWorkspace then WorkspaceTrustState.Trusted
  else calcLoop none folderStates

/-! ## Trust store (`WorkspaceTrustModel`) -/

/-- One entry of `IWorkspaceTrustStateInfo.localFolders`: `{ uri, trustState }`.
Folder URIs are embedded as the strings produced by `folder.toString()`. -/
structure FolderRecord where
  uri : String
  trustState : WorkspaceTrustState
deriving DecidableEq, Repr

/--
The update loop of `WorkspaceTrustModel.setFolderTrustState` for a
non-`Unknown` state (lines 171-180): walk every record, and for each one
whose uri matches, record `found` and, when its stored state differs,
overwrite it and record `changed`.  Returns the updated record list,
the `found` flag and the `changed` flag.
-/
def updateRecords (folder : String) (trustState : WorkspaceTrustState) :
    List FolderRecord → List FolderRecord × Bool × Bool
  | [] => ([], false, false)
  | info :: rest =>
    let r := updateRecords folder trustState rest
    if info.uri = folder then
      if info.trustState ≠ trustState then
        (⟨info.uri, trustState⟩ :: r.1, true, true)
      else
        (info :: r.1, true, r.2.2)
    else
      (info :: r.1, r.2.1, r.2.2)

/--
`WorkspaceTrustModel.setFolderTrustState` (lines 160-191) on the
`localFolders` list.  Returns the new list together with the `changed`
flag; the method calls `saveTrustInfo()` (a persistence write, which in
turn produces the storage-change notification) exactly when `changed`.
-/
def setFolderTrustState (folders : List FolderRecord) (folder : String)
    (trustState : WorkspaceTrustState) : List FolderRecord × Bool :=
  if trustState = WorkspaceTrustState.Unknown then
    let filtered := folders.filter (fun info => info.uri ≠ folder)
    (filtered, decide (filtered.length ≠ folders.length))
  else
    let r := updateRecords folder trustState folders
    if r.2.1 then (r.1, r.2.2)
    else (r.1 ++ [⟨folder, trustState⟩], true)

/--
`WorkspaceTrustModel.getFolderTrustState` (lines 193-201): the first
record whose uri matches determines the result; absent means `Unknown`.
-/
def getFolderTrustState (folders : List FolderRecord) (folder : String) :
    WorkspaceTrustState :=
  match folders with
  | [] => WorkspaceTrustState.Unknown
  | info :: rest =>
    if info.uri = folder then info.trustState else getFolderTrustState rest folder

/--
`WorkspaceTrustModel.loadTrustInfo` (lines 122-148).  The storage read
yields an optional string; `JSON.parse` is embedded as an oracle that
either throws (`Except.error`, swallowed by the empty `catch` block) or
yields a value whose `localFolders` field may be missing or falsy
(`none`) or present (`some folders`); a falsy parse result itself also
collapses into `none`.  The function returns `Except` so that the claim
"never propagates an error to callers" is expressible.
-/
def loadTrustInfo (infoAsString : Option String)
    (parse : String → Except String (Option (List FolderRecord))) :
    Except String (List FolderRecord) :=
  let result : Option (Option (List FolderRecord)) :=
    match infoAsString with
    | none => none
    | some s =>
      match parse s with
      | Except.error _ => none
      | Except.ok v => some v
  match result with
  | none => Except.ok []
  | some none => Except.ok []
  | some (some localFolders) => Except.ok localFolders

/-! ## Request coordinator (`WorkspaceTrustRequestModel`) -/

/-- `IWorkspaceTrustRequest`: `{ immediate: boolean, message?: string }`. -/
structure TrustRequest where
  immediate : Bool
  message : Option String
deriving DecidableEq, Repr

/--
`WorkspaceTrustRequestModel.initiateRequest` (lines 213-220) on the
`trustRequest` slot.  Returns the new slot value together with whether
the `onDidInitiateRequest` event fired.
-/
def initiateRequest (trustRequest : Option TrustRequest) (request : TrustRequest) :
    Option TrustRequest × Bool :=
  if (match trustRequest with
      | some pending => !request.immediate || pending.immediate
      | none => false) then
    (trustRequest, false)
  else
    (some request, true)

/-! ## Trust service facade (`WorkspaceTrustService`) -/

/--
The mutable fields of `WorkspaceTrustService` together with the state of
its owned collaborators, as one record:

* `trustEnabledConfig` — the configuration value read for
  `workspace.trustEnabled` (absent when unset);
* `isEmptyWorkspace` — whether `getWorkbenchState()` is `EMPTY`;
* `workspaceFolders` — the uris (as strings) of `_workspace.folders`;
* `dataModel` — the `localFolders` records of the owned
  `WorkspaceTrustModel`;
* `currentTrustState` — the cached `_currentTrustState`;
* `trustRequest` — the owned `WorkspaceTrustRequestModel`'s slot;
* `inFlightResolver` / `trustRequestPromise` — the resolver and promise
  of the single-flight request, identified by a numeric promise id
  (`none` when absent); `nextPromiseId` supplies fresh identities;
* `ctxWorkspaceTrustPendingRequest` / `ctxWorkspaceTrustState` — the two
  published context keys.
-/
structure ServiceState where
  trustEnabledConfig : Option Bool
  isEmptyWorkspace : Bool
  workspaceFolders : List String
  dataModel : List FolderRecord
  currentTrustState : WorkspaceTrustState
  trustRequest : Option TrustRequest
  inFlightResolver : Option Nat
  trustRequestPromise : Option Nat
  nextPromiseId : Nat
  ctxWorkspaceTrustPendingRequest : Bool
  ctxWorkspaceTrustState : WorkspaceTrustState
deriving DecidableEq, Repr

/-- Events observable from outside the service during one operation. -/
inductive ServiceEvent where
  /-- `WorkspaceTrustRequestModel._onDidInitiateRequest` fired. -/
  | initiated
  /-- `WorkspaceTrustRequestModel._onDidCompleteRequest` fired. -/
  | completed (decision : Option WorkspaceTrustState)
  /-- The promise with the given id was resolved with the given value. -/
  | resolved (id : Nat) (value : WorkspaceTrustState)
  /-- `WorkspaceTrustModel._onDidChangeTrustState` fired. -/
  | modelChanged
  /-- `WorkspaceTrustService._onDidChangeTrustState` fired. -/
  | trustStateChanged (previous current : WorkspaceTrustState)
deriving DecidableEq, Repr

/-- Result of `requireWorkspaceTrust`: an already-resolved value
(the fast paths return `this.currentTrustState` directly) or the shared
pending promise, named by its id. -/
inductive RequireResult where
  | immediateValue (value : WorkspaceTrustState)
  | future (id : Nat)
deriving DecidableEq, Repr

/-- `WorkspaceTrustService.isWorkspaceTrustEnabled` (lines 333-335):
`configurationService.getValue(WORKSPACE_TRUST_ENABLED) ?? false`. -/
def isWorkspaceTrustEnabled (s : ServiceState) : Bool :=
  s.trustEnabledConfig.getD false

/-- `calculateWorkspaceTrustState` as the service runs it: the folder
states are the data model's answers for the workspace folders. -/
def serviceCalculate (s : ServiceState) : WorkspaceTrustState :=
  calculateWorkspaceTrustState (isWorkspaceTrustEnabled s) s.isEmptyWorkspace
    (s.workspaceFolders.map (fun folder => getFolderTrustState s.dataModel folder))

/-- The `currentTrustState` setter (lines 271-277): no-op when the value
is unchanged, otherwise store it and fire the change event. -/
def setCurrentTrustState (s : ServiceState) (trustState : WorkspaceTrustState) :
    ServiceState × List ServiceEvent :=
  if s.currentTrustState = trustState then (s, [])
  else ({ s with currentTrustState := trustState },
        [ServiceEvent.trustStateChanged s.currentTrustState trustState])

/--
One `dataModel.setFolderTrustState` call as observed through the service:
when the store reports a change it saves, the storage-change notification
reloads and fires the model's change event (lines 115-119, 150-158), and
the service reacts by recomputing `currentTrustState` (line 259).
-/
def serviceSetFolderTrustState (s : ServiceState) (folder : String)
    (trustState : WorkspaceTrustState) : ServiceState × List ServiceEvent :=
  let r := setFolderTrustState s.dataModel folder trustState
  let s1 := { s with dataModel := r.1 }
  if r.2 then
    let r2 := setCurrentTrustState s1 (serviceCalculate s1)
    (r2.1, ServiceEvent.modelChanged :: r2.2)
  else
    (s1, [])

/-- The `forEach` loop of lines 321-323 (and 367-369): write `trustState`
for every workspace folder, left to right. -/
def setFoldersLoop (s : ServiceState) (folders : List String)
    (trustState : WorkspaceTrustState) : ServiceState × List ServiceEvent :=
  match folders with
  | [] => (s, [])
  | f :: rest =>
    let r1 := serviceSetFolderTrustState s f trustState
    let r2 := setFoldersLoop r1.1 rest trustState
    (r2.1, r1.2 ++ r2.2)

/--
`WorkspaceTrustService.onTrustRequestCompleted` (lines 309-327): resolve
the in-flight resolver with the decision, or with `currentTrustState`
when the decision is absent; clear resolver and promise; when a decision
is present, write it to every workspace folder and update both context
keys.
-/
def onTrustRequestCompleted (s : ServiceState) (trustState : Option WorkspaceTrustState) :
    ServiceState × List ServiceEvent :=
  let resolveEvents :=
    match s.inFlightResolver with
    | some id => [ServiceEvent.resolved id (trustState.getD s.currentTrustState)]
    | none => []
  let s1 := { s with inFlightResolver := none, trustRequestPromise := none }
  match trustState with
  | none => (s1, resolveEvents)
  | some ts =>
    let r := setFoldersLoop s1 s1.workspaceFolders ts
    ({ r.1 with ctxWorkspaceTrustPendingRequest := false,
                ctxWorkspaceTrustState := ts },
     resolveEvents ++ r.2)

/--
`WorkspaceTrustRequestModel.completeRequest` (lines 222-225) as observed
through the service: clear the request slot, fire `onDidCompleteRequest`,
which the service handles with `onTrustRequestCompleted` (line 260).
-/
def completeRequest (s : ServiceState) (trustState : Option WorkspaceTrustState) :
    ServiceState × List ServiceEvent :=
  let s1 := { s with trustRequest := none }
  let r := onTrustRequestCompleted s1 trustState
  (r.1, ServiceEvent.completed trustState :: r.2)

/-- `requestModel.initiateRequest` as called by the service, updating the
request slot inside the service state. -/
def serviceInitiateRequest (s : ServiceState) (request : TrustRequest) :
    ServiceState × List ServiceEvent :=
  let r := initiateRequest s.trustRequest request
  ({ s with trustRequest := r.1 },
   if r.2 then [ServiceEvent.initiated] else [])

/--
`WorkspaceTrustService.requireWorkspaceTrust` (lines 337-363).  The two
fast paths return the current state at once; while a promise exists it is
returned unchanged, after a possible upgrade `initiateRequest`; otherwise
a fresh promise and resolver are created, `initiateRequest` is called and
the pending-request context key raised.
-/
def requireWorkspaceTrust (s : ServiceState) (request : TrustRequest) :
    RequireResult × ServiceState × List ServiceEvent :=
  if s.currentTrustState = WorkspaceTrustState.Trusted then
    (RequireResult.immediateValue s.currentTrustState, s, [])
  else if s.currentTrustState = WorkspaceTrustState.Untrusted && !request.immediate then
    (RequireResult.immediateValue s.currentTrustState, s, [])
  else
    match s.trustRequestPromise with
    | some id =>
      if request.immediate &&
         (match s.trustRequest with
          | some pending => !pending.immediate
          | none => false) then
        let r := serviceInitiateRequest s request
        (RequireResult.future id, r.1, r.2)
      else
        (RequireResult.future id, s, [])
    | none =>
      let id := s.nextPromiseId
      let s1 := { s with trustRequestPromise := some id,
                         inFlightResolver := some id,
                         nextPromiseId := id + 1 }
      let r := serviceInitiateRequest s1 request
      (RequireResult.future id,
       { r.1 with ctxWorkspaceTrustPendingRequest := true },
       r.2)

/-- `WorkspaceTrustService.resetWorkspaceTrust` (lines 365-372). -/
def resetWorkspaceTrust (s : ServiceState) :
    WorkspaceTrustState × ServiceState × List ServiceEvent :=
  if s.currentTrustState ≠ WorkspaceTrustState.Unknown then
    let r := setFoldersLoop s s.workspaceFolders WorkspaceTrustState.Unknown
    (WorkspaceTrustState.Unknown, r.1, r.2)
  else
    (WorkspaceTrustState.Unknown, s, [])

/-- The resolution events among an event list, as `(id, value)` pairs. -/
def resolutionsOf (events : List ServiceEvent) : List (Nat × WorkspaceTrustState) :=
  match events with
  | [] => []
  | ServiceEvent.resolved id v :: rest => (id, v) :: resolutionsOf rest
  | _ :: rest => resolutionsOf rest

/-! ## Theorems -/

/-- Closed form of the aggregation loop, for any accumulator value. -/
theorem calcLoop_closed (state : Option WorkspaceTrustState)
    (fs : List WorkspaceTrustState) :
    calcLoop state fs =
      if WorkspaceTrustState.Untrusted ∈ fs then WorkspaceTrustState.Untrusted
      else if WorkspaceTrustState.Unknown ∈ fs then WorkspaceTrustState.Unknown
      else if fs = [] then state.getD WorkspaceTrustState.Unknown
      else state.getD WorkspaceTrustState.Trusted := by
  induction fs generalizing state with
  | nil => simp [calcLoop]
  | cons f rest ih =>
    cases f with
    | Untrusted => simp [calcLoop]
    | Unknown =>
      simp only [calcLoop, ih, List.mem_cons]
      split_ifs <;> simp_all
    | Trusted =>
      cases state with
      | none =>
        simp only [calcLoop, ih, List.mem_cons]
        split_ifs <;> simp_all
      | some s =>
        simp only [calcLoop, ih, List.mem_cons]
        split_ifs <;> simp_all

/--
C1: `calculateWorkspaceTrustState` returns `Trusted` when trust is not
enabled, `Trusted` when the workspace is empty, and otherwise folds the
folder states with priority `Untrusted > Unknown > Trusted`, returning
`Unknown` on an empty folder sequence.
-/
theorem C1_calculate_spec (trustEnabled isEmptyWorkspace : Bool)
    (folderStates : List WorkspaceTrustState) :
    calculateWorkspaceTrustState trustEnabled isEmptyWorkspace folderStates =
      if trustEnabled = false then WorkspaceTrustState.Trusted
      else if isEmptyWorkspace = true then WorkspaceTrustState.Trusted
      else if WorkspaceTrustState.Untrusted ∈ folderStates then WorkspaceTrustState.Untrusted
      else if WorkspaceTrustState.Unknown ∈ folderStates then WorkspaceTrustState.Unknown
      else if folderStates = [] then WorkspaceTrustState.Unknown
      else WorkspaceTrustState.Trusted := by
  cases trustEnabled <;> cases isEmptyWorkspace <;>
    simp [calculateWorkspaceTrustState, calcLoop_closed]

/--
C2: the aggregation result is invariant under any permutation of the
folder state sequence.
-/
theorem C2_calculate_perm_invariant (trustEnabled isEmptyWorkspace : Bool)
    (fs fs' : List WorkspaceTrustState) (h : List.Perm fs fs') :
    calculateWorkspaceTrustState trustEnabled isEmptyWorkspace fs =
      calculateWorkspaceTrustState trustEnabled isEmptyWorkspace fs' := by
  have hnil : (fs = []) ↔ (fs' = []) := by
    constructor <;> intro hh <;> subst hh
    · exact (List.Perm.nil_eq h).symm
    · exact List.Perm.eq_nil h
  simp only [calculateWorkspaceTrustState, calcLoop_closed, h.mem_iff, hnil]

/-! ### Trust store lemmas -/

/-- A record set answers `Unknown` for a folder no record names. -/
theorem getFolderTrustState_eq_unknown (g : String) (l : List FolderRecord)
    (h : ∀ r ∈ l, r.uri ≠ g) :
    getFolderTrustState l g = WorkspaceTrustState.Unknown := by
  induction l with
  | nil => rfl
  | cons i rest ih =>
    simp only [getFolderTrustState, if_neg (h i (List.mem_cons_self i rest))]
    exact ih (fun r hr => h r (List.mem_cons_of_mem i hr))

/-- Lookups skip a prefix whose records all name other folders. -/
theorem getFolderTrustState_append (g : String) (l l₂ : List FolderRecord)
    (h : ∀ r ∈ l, r.uri ≠ g) :
    getFolderTrustState (l ++ l₂) g = getFolderTrustState l₂ g := by
  induction l with
  | nil => rfl
  | cons i rest ih =>
    simp only [List.cons_append, getFolderTrustState,
      if_neg (h i (List.mem_cons_self i rest))]
    exact ih (fun r hr => h r (List.mem_cons_of_mem i hr))

/-- Lookups ignore a suffix whose records all name other folders. -/
theorem getFolderTrustState_append_right (g : String) (l l₂ : List FolderRecord)
    (h : ∀ r ∈ l₂, r.uri ≠ g) :
    getFolderTrustState (l ++ l₂) g = getFolderTrustState l g := by
  induction l with
  | nil => simpa using getFolderTrustState_eq_unknown g l₂ h
  | cons i rest ih =>
    simp only [List.cons_append, getFolderTrustState]
    split_ifs with hh
    · rfl
    · exact ih

/-- Lookup through the removal filter of the `Unknown` branch of
`setFolderTrustState`. -/
theorem getFolderTrustState_filter (f g : String) (l : List FolderRecord) :
    getFolderTrustState (l.filter (fun info => info.uri ≠ f)) g =
      if g = f then WorkspaceTrustState.Unknown else getFolderTrustState l g := by
  induction l with
  | nil => simp [getFolderTrustState]
  | cons i rest ih =>
    by_cases hu : i.uri = f
    · rw [List.filter_cons_of_neg (by simp [hu]), ih]
      by_cases hg : g = f
      · simp [hg]
      · simp only [if_neg hg, getFolderTrustState]
        rw [if_neg (by rw [hu]; exact fun hh => hg hh.symm)]
    · rw [List.filter_cons_of_pos (by simp [hu])]
      by_cases hig : i.uri = g
      · have hg : ¬ g = f := fun hh => hu (hh ▸ hig)
        simp [getFolderTrustState, hig, hg]
      · simp only [getFolderTrustState, if_neg hig, ih]

/-- When the update loop finds no matching record it changes nothing. -/
theorem updateRecords_not_found (f : String) (ts : WorkspaceTrustState)
    (l : List FolderRecord) (h : (updateRecords f ts l).2.1 = false) :
    (updateRecords f ts l).1 = l ∧ (updateRecords f ts l).2.2 = false ∧
      ∀ r ∈ l, r.uri ≠ f := by
  induction l with
  | nil => simp [updateRecords]
  | cons i rest ih =>
    by_cases hu : i.uri = f
    · by_cases hs : i.trustState = ts
      · simp [updateRecords, hu, hs] at h
      · simp [updateRecords, hu, hs] at h
    · simp only [updateRecords, if_neg hu] at h ⊢
      rcases ih h with ⟨h1, h2, h3⟩
      refine ⟨by rw [h1], h2, ?_⟩
      intro r hr
      rcases List.mem_cons.mp hr with hh | hh
      · exact hh ▸ hu
      · exact h3 r hh

/-- When the update loop reports no change, the record list is unchanged. -/
theorem updateRecords_changed_false (f : String) (ts : WorkspaceTrustState)
    (l : List FolderRecord) (h : (updateRecords f ts l).2.2 = false) :
    (updateRecords f ts l).1 = l := by
  induction l with
  | nil => rfl
  | cons i rest ih =>
    by_cases hu : i.uri = f
    · by_cases hs : i.trustState = ts
      · simp only [updateRecords, if_pos hu, if_neg (not_not_intro hs)] at h ⊢
        rw [ih h]
      · simp [updateRecords, hu, hs] at h
    · simp only [updateRecords, if_neg hu] at h ⊢
      rw [ih h]

/-- When the update loop reports a change, the record list differs. -/
theorem updateRecords_changed_true (f : String) (ts : WorkspaceTrustState)
    (l : List FolderRecord) (h : (updateRecords f ts l).2.2 = true) :
    (updateRecords f ts l).1 ≠ l := by
  induction l with
  | nil => simp [updateRecords] at h
  | cons i rest ih =>
    by_cases hu : i.uri = f
    · by_cases hs : i.trustState = ts
      · simp only [updateRecords, if_pos hu, if_neg (not_not_intro hs)] at h ⊢
        intro heq
        injection heq with h1 h2
        exact ih h h2
      · simp only [updateRecords, if_pos hu, if_pos hs] at h ⊢
        intro heq
        injection heq with h1 h2
        have := congrArg FolderRecord.trustState h1
        simp only at this
        exact hs this.symm
    · simp only [updateRecords, if_neg hu] at h ⊢
      intro heq
      injection heq with h1 h2
      exact ih h h2

/-- Every record produced by the update loop is an original record or
carries the written state. -/
theorem updateRecords_mem (f : String) (ts : WorkspaceTrustState)
    (l : List FolderRecord) (r : FolderRecord)
    (h : r ∈ (updateRecords f ts l).1) :
    r ∈ l ∨ r.trustState = ts := by
  induction l with
  | nil => simp [updateRecords] at h
  | cons i rest ih =>
    by_cases hu : i.uri = f
    · by_cases hs : i.trustState = ts
      · simp only [updateRecords, if_pos hu, if_neg (not_not_intro hs),
          List.mem_cons] at h
        rcases h with hh | hh
        · exact Or.inl (hh ▸ List.mem_cons_self i rest)
        · rcases ih hh with h' | h'
          · exact Or.inl (List.mem_cons_of_mem i h')
          · exact Or.inr h'
      · simp only [updateRecords, if_pos hu, if_pos hs, List.mem_cons] at h
        rcases h with hh | hh
        · exact Or.inr (by rw [hh])
        · rcases ih hh with h' | h'
          · exact Or.inl (List.mem_cons_of_mem i h')
          · exact Or.inr h'
    · simp only [updateRecords, if_neg hu, List.mem_cons] at h
      rcases h with hh | hh
      · exact Or.inl (hh ▸ List.mem_cons_self i rest)
      · rcases ih hh with h' | h'
        · exact Or.inl (List.mem_cons_of_mem i h')
        · exact Or.inr h'

/-- After the update loop, the written folder reads back the written
state exactly when the loop found a matching record; every other folder
reads back its previous state. -/
theorem getFolderTrustState_updateRecords (f : String) (ts : WorkspaceTrustState)
    (g : String) (l : List FolderRecord) :
    getFolderTrustState (updateRecords f ts l).1 g =
      if g = f ∧ (updateRecords f ts l).2.1 = true then ts
      else getFolderTrustState l g := by
  induction l with
  | nil => simp [updateRecords, getFolderTrustState]
  | cons i rest ih =>
    by_cases hu : i.uri = f
    · by_cases hs : i.trustState = ts
      · simp only [updateRecords, if_pos hu, if_neg (not_not_intro hs)]
        by_cases hg : g = f
        · simp [getFolderTrustState, hu, hg, hs]
        · simp only [getFolderTrustState, hu]
          rw [if_neg (fun hh : f = g => hg hh.symm),
              if_neg (fun hh : f = g => hg hh.symm), ih]
          simp [hg]
      · simp only [updateRecords, if_pos hu, if_pos hs]
        by_cases hg : g = f
        · simp [getFolderTrustState, hu, hg]
        · simp only [getFolderTrustState, hu]
          rw [if_neg (fun hh : f = g => hg hh.symm),
              if_neg (fun hh : f = g => hg hh.symm), ih]
          simp [hg]
    · simp only [updateRecords, if_neg hu]
      by_cases hig : i.uri = g
      · have hg : ¬ g = f := fun hh => hu (hh ▸ hig)
        simp [getFolderTrustState, hig, hg]
      · simp only [getFolderTrustState, if_neg hig, ih]

/-- A filter that keeps the whole length keeps the whole list. -/
theorem filter_length_eq (p : FolderRecord → Bool) (l : List FolderRecord)
    (h : (l.filter p).length = l.length) : l.filter p = l :=
  List.Sublist.eq_of_length (List.filter_sublist l) h

/-- Reading any folder after `setFolderTrustState`: the written folder
reads the written state, every other folder is untouched. -/
theorem getFolderTrustState_setFolderTrustState (folders : List FolderRecord)
    (f g : String) (ts : WorkspaceTrustState) :
    getFolderTrustState (setFolderTrustState folders f ts).1 g =
      if g = f then ts else getFolderTrustState folders g := by
  by_cases hts : ts = WorkspaceTrustState.Unknown
  · subst hts
    simp only [setFolderTrustState, if_pos rfl]
    exact getFolderTrustState_filter f g folders
  · simp only [setFolderTrustState, if_neg hts]
    by_cases hfound : (updateRecords f ts folders).2.1 = true
    · simp only [if_pos hfound]
      rw [getFolderTrustState_updateRecords]
      by_cases hg : g = f <;> simp [hg, hfound]
    · have hf := updateRecords_not_found f ts folders (by simpa using hfound)
      simp only [if_neg hfound]
      rw [hf.1]
      by_cases hg : g = f
      · subst hg
        rw [getFolderTrustState_append g folders _ hf.2.2, if_pos rfl]
        simp [getFolderTrustState]
      · rw [getFolderTrustState_append_right g folders _
            (by intro r hr; simp at hr; rw [hr]; exact fun hh => hg hh.symm),
            if_neg hg]

/-- Witness for C2 at a concrete permutation. -/
theorem C2_calculate_perm_invariant_witness :
    List.Perm
      [WorkspaceTrustState.Trusted, WorkspaceTrustState.Unknown]
      [WorkspaceTrustState.Unknown, WorkspaceTrustState.Trusted] ∧
    calculateWorkspaceTrustState true false
      [WorkspaceTrustState.Trusted, WorkspaceTrustState.Unknown] =
      calculateWorkspaceTrustState true false
        [WorkspaceTrustState.Unknown, WorkspaceTrustState.Trusted] := by
  refine ⟨List.Perm.swap WorkspaceTrustState.Unknown WorkspaceTrustState.Trusted [], ?_⟩
  exact C2_calculate_perm_invariant true false _ _
    (List.Perm.swap WorkspaceTrustState.Unknown WorkspaceTrustState.Trusted [])

/--
C7: trust store round-trip — after `set(f, Trusted)`, `get(f)` returns
`Trusted`; after `set(f, Unknown)`, `get(f)` returns `Unknown` and no
record for `f` remains in the persisted record set; and `get` of any
folder with no record returns `Unknown`.
-/
theorem C7_store_round_trip (folders : List FolderRecord) (f g : String) :
    getFolderTrustState (setFolderTrustState folders f WorkspaceTrustState.Trusted).1 f =
      WorkspaceTrustState.Trusted ∧
    getFolderTrustState (setFolderTrustState folders f WorkspaceTrustState.Unknown).1 f =
      WorkspaceTrustState.Unknown ∧
    (∀ r ∈ (setFolderTrustState folders f WorkspaceTrustState.Unknown).1, r.uri ≠ f) ∧
    ((∀ r ∈ folders, r.uri ≠ g) →
      getFolderTrustState folders g = WorkspaceTrustState.Unknown) := by
  refine ⟨?_, ?_, ?_, ?_⟩
  · rw [getFolderTrustState_setFolderTrustState, if_pos rfl]
  · rw [getFolderTrustState_setFolderTrustState, if_pos rfl]
  · intro r hr
    simp only [setFolderTrustState, if_pos rfl] at hr
    have := List.of_mem_filter hr
    simpa using this
  · exact getFolderTrustState_eq_unknown g folders

/-- Witness for C7 at a concrete store and folder. -/
theorem C7_store_round_trip_witness :
    getFolderTrustState [FolderRecord.mk "b" WorkspaceTrustState.Trusted] "a" =
      WorkspaceTrustState.Unknown :=
  (C7_store_round_trip [FolderRecord.mk "b" WorkspaceTrustState.Trusted] "a" "a").2.2.2
    (by decide)

/--
C8: a `setFolderTrustState` call reports a change (and hence performs a
persistence write and produces a change notification) exactly when it
changes the record set; and it never introduces a record with state
`Unknown`.
-/
theorem C8_set_mutation_effects (folders : List FolderRecord) (f : String)
    (ts : WorkspaceTrustState) :
    ((setFolderTrustState folders f ts).2 = false ↔
      (setFolderTrustState folders f ts).1 = folders) ∧
    (∀ r ∈ (setFolderTrustState folders f ts).1,
      r.trustState = WorkspaceTrustState.Unknown → r ∈ folders) := by
  constructor
  · by_cases hts : ts = WorkspaceTrustState.Unknown
    · subst hts
      simp only [setFolderTrustState, if_true]
      constructor
      · intro h
        exact filter_length_eq _ _ (by simpa using h)
      · intro h
        rw [decide_eq_false_iff_not, h]
        simp
    · simp only [setFolderTrustState, if_neg hts]
      by_cases hfound : (updateRecords f ts folders).2.1 = true
      · simp only [if_pos hfound]
        constructor
        · intro h
          exact updateRecords_changed_false f ts folders h
        · intro h
          by_contra hch
          exact updateRecords_changed_true f ts folders (by simpa using hch) h
      · have hf := updateRecords_not_found f ts folders (by simpa using hfound)
        simp only [if_neg hfound]
        constructor
        · intro h
          simp at h
        · intro h
          exfalso
          rw [hf.1] at h
          have := congrArg List.length h
          simp at this
  · intro r hr hu
    by_cases hts : ts = WorkspaceTrustState.Unknown
    · subst hts
      simp only [setFolderTrustState, if_pos rfl] at hr
      exact List.mem_of_mem_filter hr
    · simp only [setFolderTrustState, if_neg hts] at hr
      by_cases hfound : (updateRecords f ts folders).2.1 = true
      · rw [if_pos hfound] at hr
        rcases updateRecords_mem f ts folders r hr with h | h
        · exact h
        · exact absurd (h.symm.trans hu) hts
      · rw [if_neg hfound] at hr
        have hf := updateRecords_not_found f ts folders (by simpa using hfound)
        rw [hf.1] at hr
        rcases List.mem_append.mp hr with h | h
        · exact h
        · simp only [List.mem_singleton] at h
          rw [h] at hu
          exact absurd hu hts

/-- Witness for C8: writing the state a folder already has is a no-op. -/
theorem C8_set_mutation_effects_witness :
    (setFolderTrustState [FolderRecord.mk "a" WorkspaceTrustState.Trusted] "a"
      WorkspaceTrustState.Trusted).1 =
      [FolderRecord.mk "a" WorkspaceTrustState.Trusted] :=
  (C8_set_mutation_effects [FolderRecord.mk "a" WorkspaceTrustState.Trusted] "a"
    WorkspaceTrustState.Trusted).1.mp (by decide)

/--
C9: the load path is fail-safe — the result is always `ok`; an absent
payload loads the empty record set, and so does a payload on which
`JSON.parse` throws.
-/
theorem C9_load_fail_safe (infoAsString : Option String)
    (parse : String → Except String (Option (List FolderRecord))) :
    (∃ localFolders, loadTrustInfo infoAsString parse = Except.ok localFolders) ∧
    (infoAsString = none → loadTrustInfo infoAsString parse = Except.ok []) ∧
    (∀ s e, infoAsString = some s → parse s = Except.error e →
      loadTrustInfo infoAsString parse = Except.ok []) := by
  refine ⟨?_, ?_, ?_⟩
  · cases infoAsString with
    | none => exact ⟨[], rfl⟩
    | some s =>
      cases h : parse s with
      | error e => exact ⟨[], by simp [loadTrustInfo, h]⟩
      | ok v =>
        cases v with
        | none => exact ⟨[], by simp [loadTrustInfo, h]⟩
        | some fs => exact ⟨fs, by simp [loadTrustInfo, h]⟩
  · intro h
    subst h
    rfl
  · intro s e hs he
    subst hs
    simp [loadTrustInfo, he]

/-! ### Service lemmas -/

/-- `resolutionsOf` distributes over appended event lists. -/
theorem resolutionsOf_append (a b : List ServiceEvent) :
    resolutionsOf (a ++ b) = resolutionsOf a ++ resolutionsOf b := by
  induction a with
  | nil => rfl
  | cons e rest ih =>
    cases e <;> simp [resolutionsOf, ih]

/-- A single folder write through the service touches only the data
model and the cached aggregate: the request machinery, the
pending-request context key and the promise fields are untouched, and
the emitted events resolve no promise. -/
theorem serviceSetFolderTrustState_frame (s : ServiceState) (f : String)
    (ts : WorkspaceTrustState) :
    (serviceSetFolderTrustState s f ts).1.ctxWorkspaceTrustPendingRequest =
      s.ctxWorkspaceTrustPendingRequest ∧
    (serviceSetFolderTrustState s f ts).1.inFlightResolver = s.inFlightResolver ∧
    (serviceSetFolderTrustState s f ts).1.trustRequestPromise = s.trustRequestPromise ∧
    (serviceSetFolderTrustState s f ts).1.nextPromiseId = s.nextPromiseId ∧
    (serviceSetFolderTrustState s f ts).1.trustRequest = s.trustRequest ∧
    resolutionsOf (serviceSetFolderTrustState s f ts).2 = [] := by
  simp only [serviceSetFolderTrustState, setCurrentTrustState]
  split_ifs <;> simp [resolutionsOf]

/-- The folder-write loop inherits the frame of the single write. -/
theorem setFoldersLoop_frame (folders : List String) (s : ServiceState)
    (ts : WorkspaceTrustState) :
    (setFoldersLoop s folders ts).1.ctxWorkspaceTrustPendingRequest =
      s.ctxWorkspaceTrustPendingRequest ∧
    (setFoldersLoop s folders ts).1.inFlightResolver = s.inFlightResolver ∧
    (setFoldersLoop s folders ts).1.trustRequestPromise = s.trustRequestPromise ∧
    (setFoldersLoop s folders ts).1.nextPromiseId = s.nextPromiseId ∧
    (setFoldersLoop s folders ts).1.trustRequest = s.trustRequest ∧
    resolutionsOf (setFoldersLoop s folders ts).2 = [] := by
  induction folders generalizing s with
  | nil => simp [setFoldersLoop, resolutionsOf]
  | cons f rest ih =>
    have h1 := serviceSetFolderTrustState_frame s f ts
    have h2 := ih (serviceSetFolderTrustState s f ts).1
    simp only [setFoldersLoop, resolutionsOf_append]
    refine ⟨?_, ?_, ?_, ?_, ?_, ?_⟩
    · rw [h2.1, h1.1]
    · rw [h2.2.1, h1.2.1]
    · rw [h2.2.2.1, h1.2.2.1]
    · rw [h2.2.2.2.1, h1.2.2.2.1]
    · rw [h2.2.2.2.2.1, h1.2.2.2.2.1]
    · rw [h1.2.2.2.2.2, h2.2.2.2.2.2]
      rfl

/-- The creation branch of `requireWorkspaceTrust`: with no promise in
flight and neither fast path taken, a fresh promise and resolver are
created, `initiateRequest` runs, and the pending-request key is raised. -/
theorem require_creates (s : ServiceState) (request : TrustRequest)
    (hp : s.trustRequestPromise = none)
    (h1 : s.currentTrustState ≠ WorkspaceTrustState.Trusted)
    (h2 : s.currentTrustState = WorkspaceTrustState.Untrusted → request.immediate = true) :
    requireWorkspaceTrust s request =
      (RequireResult.future s.nextPromiseId,
       { s with trustRequestPromise := some s.nextPromiseId,
                inFlightResolver := some s.nextPromiseId,
                nextPromiseId := s.nextPromiseId + 1,
                trustRequest := (initiateRequest s.trustRequest request).1,
                ctxWorkspaceTrustPendingRequest := true },
       if (initiateRequest s.trustRequest request).2 then [ServiceEvent.initiated]
       else []) := by
  have hcond : (decide (s.currentTrustState = WorkspaceTrustState.Untrusted) &&
      !request.immediate) = false := by
    cases hc : s.currentTrustState with
    | Trusted => exact absurd hc h1
    | Untrusted => simp [h2 hc]
    | Unknown => simp
  simp only [requireWorkspaceTrust, if_neg h1, hcond, Bool.false_eq_true, if_false, hp,
    serviceInitiateRequest]

/-- The pending branch of `requireWorkspaceTrust`: with a promise in
flight and neither fast path taken, the same future is returned, after a
possible upgrade call to `initiateRequest`. -/
theorem require_pending (s : ServiceState) (request : TrustRequest) (id : Nat)
    (hp : s.trustRequestPromise = some id)
    (h1 : s.currentTrustState ≠ WorkspaceTrustState.Trusted)
    (h2 : s.currentTrustState = WorkspaceTrustState.Untrusted → request.immediate = true) :
    requireWorkspaceTrust s request =
      (RequireResult.future id,
       if request.immediate &&
          (match s.trustRequest with
           | some pending => !pending.immediate
           | none => false) then
         ({ s with trustRequest := (initiateRequest s.trustRequest request).1 },
          if (initiateRequest s.trustRequest request).2 then [ServiceEvent.initiated]
          else [])
       else (s, [])) := by
  have hcond : (decide (s.currentTrustState = WorkspaceTrustState.Untrusted) &&
      !request.immediate) = false := by
    cases hc : s.currentTrustState with
    | Trusted => exact absurd hc h1
    | Untrusted => simp [h2 hc]
    | Unknown => simp
  simp only [requireWorkspaceTrust, if_neg h1, hcond, Bool.false_eq_true, if_false, hp,
    serviceInitiateRequest]
  split_ifs <;> rfl

/-- Completing a request while a resolver is in flight resolves exactly
the promise the resolver points at, with the decision if present and the
current aggregated state otherwise. -/
theorem completeRequest_resolutions (s : ServiceState) (id : Nat)
    (d : Option WorkspaceTrustState) (hr : s.inFlightResolver = some id) :
    resolutionsOf (completeRequest s d).2 = [(id, d.getD s.currentTrustState)] := by
  cases d with
  | none => simp [completeRequest, onTrustRequestCompleted, hr, resolutionsOf]
  | some ts =>
    simp only [completeRequest, onTrustRequestCompleted, hr]
    simp [resolutionsOf, resolutionsOf_append,
      (setFoldersLoop_frame _ _ _).2.2.2.2.2]

/-- Completing with an absent decision leaves the data model untouched. -/
theorem completeRequest_none_dataModel (s : ServiceState) :
    (completeRequest s none).1.dataModel = s.dataModel := by
  simp [completeRequest, onTrustRequestCompleted]

/-- Witness for C9: a payload whose parse throws loads as empty. -/
theorem C9_load_fail_safe_witness :
    loadTrustInfo (some "garbage")
      (fun _ => Except.error "unexpected token") = Except.ok [] :=
  (C9_load_fail_safe (some "garbage") (fun _ => Except.error "unexpected token")).2.2
    "garbage" "unexpected token" rfl rfl

/--
C5: fast paths of `requireWorkspaceTrust` — with aggregated state
`Trusted` the call resolves immediately with `Trusted`, with no state
change and no event; with aggregated state `Untrusted` and a
non-immediate request it resolves immediately with `Untrusted`, with no
state change and no event.
-/
theorem C5_require_fast_paths (s : ServiceState) (request : TrustRequest) :
    (s.currentTrustState = WorkspaceTrustState.Trusted →
      requireWorkspaceTrust s request =
        (RequireResult.immediateValue WorkspaceTrustState.Trusted, s, [])) ∧
    (s.currentTrustState = WorkspaceTrustState.Untrusted → request.immediate = false →
      requireWorkspaceTrust s request =
        (RequireResult.immediateValue WorkspaceTrustState.Untrusted, s, [])) := by
  constructor
  · intro h
    simp [requireWorkspaceTrust, h]
  · intro h hi
    simp [requireWorkspaceTrust, h, hi]

/-- Witness for C5: spec scenario D, known-untrusted and non-immediate. -/
theorem C5_require_fast_paths_witness :
    requireWorkspaceTrust
      (ServiceState.mk (some true) false ["f1"]
        [FolderRecord.mk "f1" WorkspaceTrustState.Untrusted]
        WorkspaceTrustState.Untrusted none none none 0 false
        WorkspaceTrustState.Unknown)
      (TrustRequest.mk false none) =
      (RequireResult.immediateValue WorkspaceTrustState.Untrusted,
       ServiceState.mk (some true) false ["f1"]
        [FolderRecord.mk "f1" WorkspaceTrustState.Untrusted]
        WorkspaceTrustState.Untrusted none none none 0 false
        WorkspaceTrustState.Unknown, []) :=
  (C5_require_fast_paths _ _).2 rfl rfl

/--
C6: `initiateRequest` replaces a pending request only when the new one
is immediate and the pending one is not, firing the initiated event;
all other calls with a pending request change nothing and fire nothing;
the first request is always accepted and fires the event.
-/
theorem C6_initiate_transition (trustRequest : Option TrustRequest)
    (request : TrustRequest) :
    (∀ pending, trustRequest = some pending →
      ((request.immediate = true ∧ pending.immediate = false) →
        initiateRequest trustRequest request = (some request, true)) ∧
      (¬(request.immediate = true ∧ pending.immediate = false) →
        initiateRequest trustRequest request = (some pending, false))) ∧
    (trustRequest = none →
      initiateRequest trustRequest request = (some request, true)) := by
  constructor
  · intro pending hp
    subst hp
    constructor
    · rintro ⟨hi, hpi⟩
      simp [initiateRequest, hi, hpi]
    · intro hn
      cases hi : request.immediate with
      | false => simp [initiateRequest, hi]
      | true =>
        cases hpi : pending.immediate with
        | false => exact absurd ⟨hi, hpi⟩ hn
        | true => simp [initiateRequest, hi, hpi]
  · intro h
    subst h
    simp [initiateRequest]

/-- Witness for C6: a non-immediate-to-immediate upgrade is accepted. -/
theorem C6_initiate_transition_witness :
    initiateRequest (some (TrustRequest.mk false none)) (TrustRequest.mk true none) =
      (some (TrustRequest.mk true none), true) :=
  ((C6_initiate_transition (some (TrustRequest.mk false none))
    (TrustRequest.mk true none)).1 (TrustRequest.mk false none) rfl).1 (by decide)

/--
C3: single-flight — while a promise is pending and neither fast path
applies, `requireWorkspaceTrust` returns that same future and creates no
second future or resolver; when the new request is immediate and the
pending coordinator request is not, `initiateRequest` upgrades it and
refires the initiated event; completing the pending request produces
exactly one resolution of the shared future, so every caller observes
the same value.
-/
theorem C3_single_flight (s : ServiceState) (request : TrustRequest) (id : Nat)
    (hp : s.trustRequestPromise = some id)
    (hr : s.inFlightResolver = some id)
    (h1 : s.currentTrustState ≠ WorkspaceTrustState.Trusted)
    (h2 : s.currentTrustState = WorkspaceTrustState.Untrusted →
      request.immediate = true) :
    (requireWorkspaceTrust s request).1 = RequireResult.future id ∧
    (requireWorkspaceTrust s request).2.1.trustRequestPromise = some id ∧
    (requireWorkspaceTrust s request).2.1.inFlightResolver = some id ∧
    (requireWorkspaceTrust s request).2.1.nextPromiseId = s.nextPromiseId ∧
    (request.immediate = true →
      ∀ pending, s.trustRequest = some pending → pending.immediate = false →
        (requireWorkspaceTrust s request).2.1.trustRequest = some request ∧
        (requireWorkspaceTrust s request).2.2 = [ServiceEvent.initiated]) ∧
    (∀ d, resolutionsOf
        (completeRequest (requireWorkspaceTrust s request).2.1 d).2 =
      [(id, d.getD s.currentTrustState)]) := by
  rw [require_pending s request id hp h1 h2]
  cases hcond : (request.immediate &&
      (match s.trustRequest with
       | some pending => !pending.immediate
       | none => false)) with
  | false =>
    rw [if_neg (by simp [hcond])]
    refine ⟨rfl, hp, hr, rfl, ?_, ?_⟩
    · intro hi pending hpend hpi
      rw [hpend] at hcond
      simp [hi, hpi] at hcond
    · intro d
      exact completeRequest_resolutions s id d hr
  | true =>
    rw [if_pos (by simp [hcond])]
    have hini : initiateRequest s.trustRequest request = (some request, true) := by
      cases hreq : s.trustRequest with
      | none => rw [hreq] at hcond; simp at hcond
      | some pending =>
        rw [hreq] at hcond
        simp only [Bool.and_eq_true] at hcond
        have hpi : pending.immediate = false := by simpa using hcond.2
        simp [initiateRequest, hcond.1, hpi]
    refine ⟨rfl, hp, hr, rfl, ?_, ?_⟩
    · intro hi pending hpend hpi
      rw [hini]
      exact ⟨rfl, rfl⟩
    · intro d
      exact completeRequest_resolutions
        { s with trustRequest := (initiateRequest s.trustRequest request).1 }
        id d hr

/-- Witness for C3 at a concrete pending state: an immediate request
while a non-immediate one is pending shares future 0, and completing
with `Trusted` resolves it once with `Trusted`. -/
theorem C3_single_flight_witness :
    (requireWorkspaceTrust
      (ServiceState.mk (some true) false ["f1"] [] WorkspaceTrustState.Unknown
        (some (TrustRequest.mk false none)) (some 0) (some 0) 1 true
        WorkspaceTrustState.Unknown)
      (TrustRequest.mk true none)).1 = RequireResult.future 0 ∧
    resolutionsOf
      (completeRequest
        (requireWorkspaceTrust
          (ServiceState.mk (some true) false ["f1"] [] WorkspaceTrustState.Unknown
            (some (TrustRequest.mk false none)) (some 0) (some 0) 1 true
            WorkspaceTrustState.Unknown)
          (TrustRequest.mk true none)).2.1
        (some WorkspaceTrustState.Trusted)).2 =
      [(0, WorkspaceTrustState.Trusted)] := by
  constructor
  · exact (C3_single_flight _ _ 0 rfl rfl (by decide)
      (fun _ => rfl)).1
  · have := (C3_single_flight
      (ServiceState.mk (some true) false ["f1"] [] WorkspaceTrustState.Unknown
        (some (TrustRequest.mk false none)) (some 0) (some 0) 1 true
        WorkspaceTrustState.Unknown)
      (TrustRequest.mk true none) 0 rfl rfl (by decide)
      (fun _ => rfl)).2.2.2.2.2 (some WorkspaceTrustState.Trusted)
    simpa using this

/--
C4: cancellation — creating a request future from a quiescent state and
then completing it with an absent decision resolves the future to the
aggregated state that existed immediately before the request was made,
and leaves every per-folder record of the trust store unchanged.
-/
theorem C4_cancellation (s : ServiceState) (request : TrustRequest)
    (hp : s.trustRequestPromise = none)
    (h1 : s.currentTrustState ≠ WorkspaceTrustState.Trusted)
    (h2 : s.currentTrustState = WorkspaceTrustState.Untrusted →
      request.immediate = true) :
    resolutionsOf
        (completeRequest (requireWorkspaceTrust s request).2.1 none).2 =
      [(s.nextPromiseId, s.currentTrustState)] ∧
    (completeRequest (requireWorkspaceTrust s request).2.1 none).1.dataModel =
      s.dataModel := by
  rw [require_creates s request hp h1 h2]
  constructor
  · rw [completeRequest_resolutions _ s.nextPromiseId none rfl]
    simp
  · rw [completeRequest_none_dataModel]

/-- Witness for C4: cancelling a fresh request from an undecided
single-folder workspace resolves to the prior `Unknown` aggregate and
writes nothing. -/
theorem C4_cancellation_witness :
    resolutionsOf
        (completeRequest
          (requireWorkspaceTrust
            (ServiceState.mk (some true) false ["f1"] []
              WorkspaceTrustState.Unknown none none none 0 false
              WorkspaceTrustState.Unknown)
            (TrustRequest.mk false none)).2.1 none).2 =
      [(0, WorkspaceTrustState.Unknown)] ∧
    (completeRequest
        (requireWorkspaceTrust
          (ServiceState.mk (some true) false ["f1"] []
            WorkspaceTrustState.Unknown none none none 0 false
            WorkspaceTrustState.Unknown)
          (TrustRequest.mk false none)).2.1 none).1.dataModel = [] :=
  C4_cancellation _ _ rfl (by decide) (fun h => by cases h)

/--
C10: the published pending-request flag is raised when
`requireWorkspaceTrust` creates a new future; a completion carrying a
decision lowers it; a completion with an absent decision leaves it
untouched; and neither `requireWorkspaceTrust` nor
`resetWorkspaceTrust` ever lowers it.
-/
theorem C10_pending_flag (s : ServiceState) (request : TrustRequest)
    (d : WorkspaceTrustState) :
    (s.trustRequestPromise = none →
      s.currentTrustState ≠ WorkspaceTrustState.Trusted →
      (s.currentTrustState = WorkspaceTrustState.Untrusted →
        request.immediate = true) →
      (requireWorkspaceTrust s request).2.1.ctxWorkspaceTrustPendingRequest =
        true) ∧
    (completeRequest s (some d)).1.ctxWorkspaceTrustPendingRequest = false ∧
    (completeRequest s none).1.ctxWorkspaceTrustPendingRequest =
      s.ctxWorkspaceTrustPendingRequest ∧
    ((requireWorkspaceTrust s request).2.1.ctxWorkspaceTrustPendingRequest =
        s.ctxWorkspaceTrustPendingRequest ∨
      (requireWorkspaceTrust s request).2.1.ctxWorkspaceTrustPendingRequest =
        true) ∧
    (resetWorkspaceTrust s).2.1.ctxWorkspaceTrustPendingRequest =
      s.ctxWorkspaceTrustPendingRequest := by
  refine ⟨?_, ?_, ?_, ?_, ?_⟩
  · intro hp h1 h2
    rw [require_creates s request hp h1 h2]
  · simp [completeRequest, onTrustRequestCompleted]
  · simp [completeRequest, onTrustRequestCompleted]
  · simp only [requireWorkspaceTrust]
    split_ifs with hA hB hC
    · exact Or.inl rfl
    · exact Or.inl rfl
    · cases hsp : s.trustRequestPromise with
      | some id => simp [hsp, serviceInitiateRequest]
      | none => simp [hsp, serviceInitiateRequest]
    · cases hsp : s.trustRequestPromise with
      | some id => simp [hsp, serviceInitiateRequest]
      | none => simp [hsp, serviceInitiateRequest]
  · simp only [resetWorkspaceTrust]
    split_ifs with h
    · exact (setFoldersLoop_frame s.workspaceFolders s WorkspaceTrustState.Unknown).1
    · rfl

/-- Witness for C10: creating a request raises the flag. -/
theorem C10_pending_flag_witness :
    (requireWorkspaceTrust
      (ServiceState.mk (some true) false ["f1"] [] WorkspaceTrustState.Unknown
        none none none 0 false WorkspaceTrustState.Unknown)
      (TrustRequest.mk false none)).2.1.ctxWorkspaceTrustPendingRequest = true :=
  (C10_pending_flag _ (TrustRequest.mk false none) WorkspaceTrustState.Trusted).1
    rfl (by decide) (fun h => by cases h)

end WorkspaceTrust
